import Mathlib

/-!
# Verification of the Dalil Runner control plane

Shallow embedding of the Dalil runner control plane
(`src/features/runner/application/field-operations.ts`,
`src/features/runner/interface/http/runner-server.ts`, and the
`cmdRun` stop sequence) together with proofs of the specified
properties of field identity derivation, the apply/revert state
machine, the HTTP protocol envelope, and the shutdown ordering.
-/

namespace Dalil

/-! ## SHA-1 (as used by node:crypto `createHash("sha1")`)

Executable SHA-1 over byte lists, needed to embed `makeFieldId`. -/

/-- Truncate to a 32-bit word. -/
def w32 (n : Nat) : Nat := n % 4294967296

/-- Rotate a 32-bit word left by `k` bits. -/
def rotl (k n : Nat) : Nat := w32 (n * 2 ^ k) + n / 2 ^ (32 - k)

/-- Big-endian 8-byte encoding of a length in bits. -/
def be64 (n : Nat) : List Nat :=
  [n / 2 ^ 56 % 256, n / 2 ^ 48 % 256, n / 2 ^ 40 % 256, n / 2 ^ 32 % 256,
   n / 2 ^ 24 % 256, n / 2 ^ 16 % 256, n / 2 ^ 8 % 256, n % 256]

/-- SHA-1 padding: append `0x80`, zero bytes to 56 mod 64, then the
bit length big-endian. -/
def sha1Pad (msg : List Nat) : List Nat :=
  let z := (119 - msg.length % 64) % 64
  msg ++ 128 :: List.replicate z 0 ++ be64 (msg.length * 8)

/-- Split a byte list into 64-byte chunks (structural recursion on a
fuel bound so the kernel can evaluate it). -/
def chunks64Aux : Nat → List Nat → List (List Nat)
  | 0, _ => []
  | _, [] => []
  | fuel + 1, x :: xs => ((x :: xs).take 64) :: chunks64Aux fuel ((x :: xs).drop 64)

/-- Split a byte list into 64-byte chunks. -/
def chunks64 (l : List Nat) : List (List Nat) := chunks64Aux l.length l

/-- Combine four bytes into one big-endian 32-bit word. -/
def word32 (b0 b1 b2 b3 : Nat) : Nat := b0 * 2 ^ 24 + b1 * 2 ^ 16 + b2 * 2 ^ 8 + b3

/-- The 16 initial message-schedule words of one chunk. -/
def initialWords : List Nat → List Nat
  | b0 :: b1 :: b2 :: b3 :: rest => word32 b0 b1 b2 b3 :: initialWords rest
  | _ => []

/-- One extension step of the message schedule:
`w[i] = rotl1 (w[i-3] xor w[i-8] xor w[i-14] xor w[i-16])`. -/
def extendStep (ws : List Nat) : List Nat :=
  ws ++ [rotl 1 (((ws.getD (ws.length - 3) 0).xor
    (ws.getD (ws.length - 8) 0)).xor
    ((ws.getD (ws.length - 14) 0).xor (ws.getD (ws.length - 16) 0)))]

/-- Extend the message schedule until it has 80 words (fuel-bounded
structural recursion). -/
def extendWordsAux : Nat → List Nat → List Nat
  | 0, ws => ws
  | fuel + 1, ws => if ws.length < 80 then extendWordsAux fuel (extendStep ws) else ws

/-- Extend the 16-word message schedule of a chunk to 80 words. -/
def extendWords (ws : List Nat) : List Nat := extendWordsAux 80 ws

/-- One SHA-1 round: the round function and constant depend on the
round index `i`. -/
def sha1Round (ws : List Nat) (i : Nat)
    (st : Nat × Nat × Nat × Nat × Nat) : Nat × Nat × Nat × Nat × Nat :=
  let (a, b, c, d, e) := st
  let f :=
    if i < 20 then (b.land c).lor ((b.xor 4294967295).land d)
    else if i < 40 then (b.xor c).xor d
    else if i < 60 then ((b.land c).lor (b.land d)).lor (c.land d)
    else (b.xor c).xor d
  let k :=
    if i < 20 then 1518500249
    else if i < 40 then 1859775393
    else if i < 60 then 2400959708
    else 3395469782
  let temp := w32 (rotl 5 a + f + e + k + ws.getD i 0)
  (temp, a, rotl 30 b, c, d)

/-- Compress one 64-byte chunk into the running hash state. -/
def sha1Compress (h : Nat × Nat × Nat × Nat × Nat) (chunk : List Nat) :
    Nat × Nat × Nat × Nat × Nat :=
  let ws := extendWords (initialWords chunk)
  let (h0, h1, h2, h3, h4) := h
  let (a, b, c, d, e) := (List.range 80).foldl (fun st i => sha1Round ws i st) h
  (w32 (h0 + a), w32 (h1 + b), w32 (h2 + c), w32 (h3 + d), w32 (h4 + e))

/-- SHA-1 of a byte list, as the five 32-bit state words. -/
def sha1Words (msg : List Nat) : Nat × Nat × Nat × Nat × Nat :=
  (chunks64 (sha1Pad msg)).foldl sha1Compress
    (1732584193, 4023233417, 2562383102, 271733878, 3285377520)

/-- One lowercase hexadecimal digit. -/
def hexChar (n : Nat) : Char :=
  if n < 10 then Char.ofNat (48 + n) else Char.ofNat (87 + n)

/-- Lowercase hex rendering of a 32-bit word, zero-padded to 8 digits. -/
def hex32 (n : Nat) : List Char :=
  [hexChar (n / 2 ^ 28 % 16), hexChar (n / 2 ^ 24 % 16), hexChar (n / 2 ^ 20 % 16),
   hexChar (n / 2 ^ 16 % 16), hexChar (n / 2 ^ 12 % 16), hexChar (n / 2 ^ 8 % 16),
   hexChar (n / 2 ^ 4 % 16), hexChar (n % 16)]

/-- The 40 hex characters of the SHA-1 digest. -/
def sha1HexChars (msg : List Nat) : List Char :=
  let (h0, h1, h2, h3, h4) := sha1Words msg
  hex32 h0 ++ hex32 h1 ++ hex32 h2 ++ hex32 h3 ++ hex32 h4

/-- The 40-character lowercase hex digest of SHA-1, as `digest("hex")`
returns it. -/
def sha1Hex (msg : List Nat) : String := String.mk (sha1HexChars msg)

/-- UTF-8 encoding of one character, matching what
`createHash(...).update(string)` hashes (node's default utf8 input
encoding). -/
def utf8Encode (c : Char) : List Nat :=
  let n := c.toNat
  if n < 128 then [n]
  else if n < 2048 then [192 + n / 64, 128 + n % 64]
  else if n < 65536 then [224 + n / 4096, 128 + n / 64 % 64, 128 + n % 64]
  else [240 + n / 262144, 128 + n / 4096 % 64, 128 + n / 64 % 64, 128 + n % 64]

/-- UTF-8 bytes of a string. -/
def strBytes (s : String) : List Nat := (s.data.map utf8Encode).flatten

/-! ## `makeFieldId` (field-operations.ts lines 5-11) -/

/-- `makeFieldId`: sha1 of `` `${domPath}::${label}::${type}` `` in hex,
sliced to its first 12 characters, prefixed with `fld_`. -/
def makeFieldId (domPath label type' : String) : String :=
  let digest := String.mk ((sha1HexChars
    (strBytes (domPath ++ "::" ++ label ++ "::" ++ type'))).take 12)
  "fld_" ++ digest

/-! ## Data model (shared/types.ts) -/

/-- `FieldConstraints` (shared/types.ts). -/
structure FieldConstraints where
  maxLength : Option Nat
  required : Bool
  pattern : Option String
  languageHint : Option String
  deriving Repr, DecidableEq

/-- `FormField` (shared/types.ts). -/
structure FormField where
  fieldId : String
  domPath : String
  type : String
  name : Option String
  label : String
  placeholder : Option String
  hints : List String
  constraints : FieldConstraints
  deriving Repr, DecidableEq

/-- One raw element record as produced by the in-page `page.evaluate`
closure of `scanFieldsOnPage` (field-operations.ts lines 89-99),
extended with the element's current `value` so that the page-side
read/write operations can be modelled on the same data. -/
structure PageField where
  domPath : String
  type : String
  name : Option String
  label : String
  placeholder : Option String
  hints : List String
  required : Bool
  maxLength : Option Nat
  pattern : Option String
  value : String
  deriving Repr, DecidableEq

/-- The live page as the driver exposes it: its location, title, and
the raw eligible-element records the scan closure would report, in
document order. -/
structure Page where
  url : String
  title : String
  rawFields : List PageField
  deriving Repr, DecidableEq

/-- `document.querySelector(selector)` over the modelled page: the
first element whose structural locator matches. -/
def pageQuery (pg : Page) (selector : String) : Option PageField :=
  pg.rawFields.find? (fun f => f.domPath == selector)

/-- Write `node.value = payload` on the first element matching the
selector, leaving every other element untouched. -/
def pageWriteValue : List PageField → String → String → List PageField
  | [], _, _ => []
  | f :: rest, selector, v =>
      if f.domPath == selector then { f with value := v } :: rest
      else f :: pageWriteValue rest selector v

/-! ## Field operations (field-operations.ts)

Each page-touching operation is embedded as a pure function of the
modelled `Page`; an in-page `throw` becomes `Except.error` with the
thrown message.  Operations that matter for sequencing additionally
report the list of page-side actions they perform. -/

/-- Observable page-side actions, used to state ordering and
no-mutation properties. -/
inductive Action where
  /-- `node.value = payload` at a selector. -/
  | pageWrite (selector payload : String)
  /-- `node.dispatchEvent(new Event(name, {bubbles: true}))`. -/
  | dispatchEvent (name : String)
  /-- `locator.click()` of the keystroke fallback. -/
  | click (selector : String)
  /-- `locator.fill("")` of the keystroke fallback. -/
  | fill (selector payload : String)
  /-- `locator.type(text)` simulated keystrokes. -/
  | typeKeys (selector payload : String)
  /-- the highlight outline/scroll evaluate call. -/
  | highlight (selector : String)
  /-- `saveRuntimeState` persisting the scan result. -/
  | persist (fields : List FormField)
  /-- `state.undo.set(fieldId, prev)` capturing the undo snapshot. -/
  | undoCapture (fieldId value : String)
  deriving Repr, DecidableEq

/-- `matchesLangHint`: the test `/영문|english|한글|korean/i.test(hint)`
of field-operations.ts line 113 — case-insensitive containment of one
of the four tokens. -/
def containsToken (pat : List Char) (s : List Char) : Bool :=
  match s with
  | [] => pat.isEmpty
  | _ :: rest => pat.isPrefixOf s || containsToken pat rest

/-- Case-insensitive test for the language-hint pattern. -/
def matchesLangHint (s : String) : Bool :=
  let low := (s.data.map Char.toLower)
  containsToken "영문".data low || containsToken "english".data low ||
    containsToken "한글".data low || containsToken "korean".data low

/-- `scanFieldsOnPage` (lines 112-129): map each raw element record to
a `FormField`, deriving `fieldId` with `makeFieldId` and picking the
first language hint. -/
def scanFieldsOnPage (pg : Page) : List FormField :=
  pg.rawFields.map fun f =>
    let languageHint := f.hints.find? matchesLangHint
    { fieldId := makeFieldId f.domPath f.label f.type
      domPath := f.domPath
      type := f.type
      name := f.name
      label := f.label
      placeholder := f.placeholder
      hints := f.hints
      constraints :=
        { required := f.required
          maxLength := f.maxLength
          pattern := f.pattern
          languageHint := languageHint } }

/-- `ensureFieldExists` (lines 134-139): `Boolean(document.querySelector(selector))`. -/
def ensureFieldExists (pg : Page) (domPath : String) : Bool :=
  (pageQuery pg domPath).isSome

/-- `readFieldValue` (lines 156-165): throws `"Field not found"` when
the selector matches nothing, else returns `node.value || ""` (the
identity on strings, since only the empty string is falsy). -/
def readFieldValue (pg : Page) (domPath : String) : Except String String :=
  match pageQuery pg domPath with
  | none => .error "Field not found"
  | some f => .ok f.value

/-- `setFieldValue` (lines 167-180): throws `"Field not found"` when
the selector matches nothing, else assigns `node.value` and dispatches
bubbling `input` and `change` events. -/
def setFieldValue (pg : Page) (domPath text : String) :
    Except String (Page × List Action) :=
  match pageQuery pg domPath with
  | none => .error "Field not found"
  | some _ =>
      .ok ({ pg with rawFields := pageWriteValue pg.rawFields domPath text },
        [.pageWrite domPath text, .dispatchEvent "input", .dispatchEvent "change"])

/-- `typeIntoField` (lines 182-187): click the first matching locator
(a missing element makes the driver call fail), clear with `fill("")`,
then emit the text as simulated keystrokes. -/
def typeIntoField (pg : Page) (domPath text : String) :
    Except String (Page × List Action) :=
  match pageQuery pg domPath with
  | none => .error "locator timeout"
  | some _ =>
      .ok ({ pg with rawFields := pageWriteValue pg.rawFields domPath text },
        [.click domPath, .fill domPath "", .typeKeys domPath text])

/-- `highlightField` (lines 141-154): throws `"Field not found"` when
the selector matches nothing; otherwise a purely visual outline and
scroll, no field value changes. -/
def highlightField (pg : Page) (domPath : String) :
    Except String (List Action) :=
  match pageQuery pg domPath with
  | none => .error "Field not found"
  | some _ => .ok [.highlight domPath]

/-- `getPageInfo` (lines 189-195). -/
def getPageInfo (pg : Page) : String × String := (pg.url, pg.title)

/-! ## Control Protocol server (runner-server.ts lines 110-236) -/

/-- Runner mode (shared/types.ts `Mode`). -/
inductive Mode where
  | managed
  | attach
  deriving Repr, DecidableEq

/-- The server's mutable state (runner-server.ts lines 110-116):
`fields` from the last scan and the per-field undo map.  The
`Map<string, string>` is modelled as an association list with map
semantics (`undoSet`/`undoGet`/`undoDelete`). -/
structure ServerState where
  fields : List FormField
  undo : List (String × String)
  deriving Repr, DecidableEq

/-- `Map.prototype.set`: replace the value at the key when a binding
exists (keys are unique, so at most one does), else append a new
binding at the end, preserving insertion order. -/
def undoSet : List (String × String) → String → String → List (String × String)
  | [], k, v => [(k, v)]
  | p :: rest, k, v => if p.1 == k then (k, v) :: rest else p :: undoSet rest k v

/-- `Map.prototype.get` (`undefined` becomes `none`). -/
def undoGet (m : List (String × String)) (k : String) : Option String :=
  (m.find? (fun p => p.1 == k)).map (fun p => p.2)

/-- `Map.prototype.delete`. -/
def undoDelete (m : List (String × String)) (k : String) : List (String × String) :=
  m.filter (fun p => p.1 != k)

/-- One parsed request, one constructor per routed endpoint.  Body
fields are `Option`s because the JSON body may omit them
(`body.fieldId`/`body.text` are optional in the handlers). -/
inductive Request where
  | health
  | scanFields
  | listFields
  | fieldById (fieldId : String)
  | pageInfo
  | highlightReq (fieldId : Option String)
  | readValue (fieldId : Option String)
  | setValue (fieldId : Option String) (text : Option String)
  | typeInto (fieldId : Option String) (text : Option String)
  | revert (fieldId : Option String)
  | unknownEndpoint
  deriving Repr, DecidableEq

/-- A JSON response payload, one constructor per distinct `sendJson`
body shape. -/
inductive Payload where
  /-- `{ok: true, mode}` of `/health`. -/
  | health (mode : Mode)
  /-- `{ok: true, fields}` of `/scan_fields` and `/fields`. -/
  | fieldList (fields : List FormField)
  /-- `{ok: true, field}` of `/field/:id`. -/
  | field (field : FormField)
  /-- `{ok: true, page}` of `/page_info`. -/
  | pageInfo (url title : String)
  /-- `{ok: true, value}` of `/read_field_value`. -/
  | value (value : String)
  /-- bare `{ok: true}`. -/
  | okEmpty
  /-- `{ok: false, error}`. -/
  | err (error : String)
  deriving Repr, DecidableEq

/-- The `ok` flag the payload carries on the wire. -/
def Payload.ok : Payload → Bool
  | .err _ => false
  | _ => true

/-- The `error` field the payload carries on the wire. -/
def Payload.error : Payload → Option String
  | .err e => some e
  | _ => none

/-- An HTTP response: status code and JSON payload. -/
structure Response where
  status : Nat
  payload : Payload
  deriving Repr, DecidableEq

/-- The complete outcome of handling one request: the response, the
server state and page afterwards, and the page-side actions performed. -/
structure HandlerOut where
  resp : Response
  state : ServerState
  page : Page
  trace : List Action
  deriving Repr, DecidableEq

/-- `state.fields.find((f) => f.fieldId === body.fieldId)`: an absent
`body.fieldId` (`undefined`) never equals a string `fieldId`. -/
def findField (fields : List FormField) (fid : Option String) : Option FormField :=
  match fid with
  | none => none
  | some fid => fields.find? (fun f => f.fieldId == fid)

/-- The body of the request handler inside the `try` block
(runner-server.ts lines 130-232).  A fault thrown by a page operation
surfaces as `Except.error`; on every reachable fault no state mutation
has happened yet, so the erroring branches return the message alone. -/
def handleInner (mode : Mode) (req : Request) (st : ServerState) (pg : Page) :
    Except String HandlerOut :=
  match req with
  | .health => .ok ⟨⟨200, .health mode⟩, st, pg, []⟩
  | .scanFields =>
      let fields := scanFieldsOnPage pg
      .ok ⟨⟨200, .fieldList fields⟩, { st with fields := fields }, pg, [.persist fields]⟩
  | .listFields => .ok ⟨⟨200, .fieldList st.fields⟩, st, pg, []⟩
  | .fieldById fid =>
      match findField st.fields (some fid) with
      | none => .ok ⟨⟨404, .err "Field not found. Run scan first."⟩, st, pg, []⟩
      | some f => .ok ⟨⟨200, .field f⟩, st, pg, []⟩
  | .pageInfo =>
      let info := getPageInfo pg
      .ok ⟨⟨200, .pageInfo info.1 info.2⟩, st, pg, []⟩
  | .highlightReq fid =>
      match findField st.fields fid with
      | none => .ok ⟨⟨404, .err "Field not found."⟩, st, pg, []⟩
      | some field =>
          match highlightField pg field.domPath with
          | .error e => .error e
          | .ok acts => .ok ⟨⟨200, .okEmpty⟩, st, pg, acts⟩
  | .readValue fid =>
      match findField st.fields fid with
      | none => .ok ⟨⟨404, .err "Field not found."⟩, st, pg, []⟩
      | some field =>
          match readFieldValue pg field.domPath with
          | .error e => .error e
          | .ok v => .ok ⟨⟨200, .value v⟩, st, pg, []⟩
  | .setValue fid text =>
      match findField st.fields fid with
      | none => .ok ⟨⟨404, .err "Field not found."⟩, st, pg, []⟩
      | some field =>
          if ensureFieldExists pg field.domPath then
            match readFieldValue pg field.domPath with
            | .error e => .error e
            | .ok prev =>
                match setFieldValue pg field.domPath (text.getD "") with
                | .error e => .error e
                | .ok (pg', acts) =>
                    .ok ⟨⟨200, .okEmpty⟩,
                      { st with undo := undoSet st.undo field.fieldId prev },
                      pg', .undoCapture field.fieldId prev :: acts⟩
          else .ok ⟨⟨410, .err "Field no longer exists on page."⟩, st, pg, []⟩
  | .typeInto fid text =>
      match findField st.fields fid with
      | none => .ok ⟨⟨404, .err "Field not found."⟩, st, pg, []⟩
      | some field =>
          match readFieldValue pg field.domPath with
          | .error e => .error e
          | .ok prev =>
              match typeIntoField pg field.domPath (text.getD "") with
              | .error e => .error e
              | .ok (pg', acts) =>
                  .ok ⟨⟨200, .okEmpty⟩,
                    { st with undo := undoSet st.undo field.fieldId prev },
                    pg', .undoCapture field.fieldId prev :: acts⟩
  | .revert fid =>
      match findField st.fields fid with
      | none => .ok ⟨⟨404, .err "Field not found."⟩, st, pg, []⟩
      | some field =>
          match undoGet st.undo field.fieldId with
          | none => .ok ⟨⟨404, .err "No undo snapshot available."⟩, st, pg, []⟩
          | some previous =>
              match setFieldValue pg field.domPath previous with
              | .error e => .error e
              | .ok (pg', acts) =>
                  .ok ⟨⟨200, .okEmpty⟩,
                    { st with undo := undoDelete st.undo field.fieldId },
                    pg', acts⟩
  | .unknownEndpoint => .ok ⟨⟨404, .err "Unknown endpoint."⟩, st, pg, []⟩

/-- The full request handler: `handleInner` inside the `try`, and the
`catch` (lines 233-235) turning any thrown fault into a 500 error
envelope. -/
def handle (mode : Mode) (req : Request) (st : ServerState) (pg : Page) : HandlerOut :=
  match handleInner mode req st pg with
  | .ok out => out
  | .error e => ⟨⟨500, .err e⟩, st, pg, []⟩

/-- The value currently held by the first element matching a selector. -/
def pageValue (pg : Page) (domPath : String) : Option String :=
  (pageQuery pg domPath).map (fun f => f.value)

/-! ## Session lifecycle: the stop sequence

`close` (runner-server.ts lines 249-258) and `stop` (the runner
command's shutdown handler, reached from both the explicit stop path
and the SIGINT/SIGTERM handlers). -/

/-- Observable shutdown events. -/
inductive StopEvent where
  | listenerClosed
  | contextClosed
  | browserClosed
  | descriptorRemoved
  deriving Repr, DecidableEq

/-- `close`: await `server.close` (its promise only ever resolves, so
the listener teardown always completes), then close the managed
context or, in attach mode, the CDP browser connection when one was
opened.  Context/browser teardown may reject; the flags say whether it
does. -/
def closeSeq (mode : Mode) (browserPresent contextCloseFails browserCloseFails : Bool) :
    List StopEvent × Except String Unit :=
  let evs := [StopEvent.listenerClosed]
  match mode with
  | .managed =>
      if contextCloseFails then (evs, .error "context close failed")
      else (evs ++ [.contextClosed], .ok ())
  | .attach =>
      if browserPresent then
        if browserCloseFails then (evs, .error "browser close failed")
        else (evs ++ [.browserClosed], .ok ())
      else (evs, .ok ())

/-- `stop`: the idempotence guard, then `try { await runner.close() }
finally { remove the connection descriptor file when it exists }`; a
rejection from `close` still reaches the `finally` and then
propagates. -/
def stopSeq (stopped : Bool) (mode : Mode)
    (browserPresent contextCloseFails browserCloseFails descriptorExists : Bool) :
    List StopEvent × Except String Unit :=
  if stopped then ([], .ok ())
  else
    let (evs, r) := closeSeq mode browserPresent contextCloseFails browserCloseFails
    (evs ++ (if descriptorExists then [StopEvent.descriptorRemoved] else []), r)

/-! ## Concrete fixtures for witnesses and counterexamples -/

/-- A concrete raw page element holding the value `"old"`. -/
def wRaw : PageField :=
  ⟨"p", "input:text", none, "l", none, [], false, none, none, "old"⟩

/-- A concrete page with the single element `wRaw`. -/
def wPage : Page := ⟨"http://u", "t", [wRaw]⟩

/-- The descriptor the server holds for `wRaw` after a scan, with its
content-derived id spelt out. -/
def wField : FormField :=
  ⟨"f1", "p", "input:text", none, "l", none, [], ⟨none, false, none, none⟩⟩

/-- A server state knowing `wField` with an empty undo map. -/
def wState : ServerState := ⟨[wField], []⟩

/-- The content-derived id the scan assigns to `wRaw`. -/
def wRawId : String := makeFieldId "p" "l" "input:text"

/-- The server state right after an initial scan of `wPage`. -/
def scanState : ServerState := ⟨scanFieldsOnPage wPage, []⟩

/-- Outcome of `setValue(wRawId, "x")` on the freshly scanned state. -/
def afterSet : HandlerOut :=
  handle .managed (.setValue (some wRawId) (some "x")) scanState wPage

/-- Outcome of the `scan` issued right after that set. -/
def afterRescan : HandlerOut := handle .managed .scanFields afterSet.state afterSet.page

/-- Outcome of `revert(wRawId)` issued right after that scan. -/
def afterRevert : HandlerOut :=
  handle .managed (.revert (some wRawId)) afterRescan.state afterRescan.page

/-! ## Helper lemmas about the undo map and the page -/

theorem undoGet_undoSet_self (m : List (String × String)) (k v : String) :
    undoGet (undoSet m k v) k = some v := by
  induction m with
  | nil => simp [undoSet, undoGet]
  | cons p rest ih =>
      by_cases h : p.1 == k
      · simp [undoSet, undoGet, h]
      · simpa [undoSet, undoGet, h] using ih

theorem undoGet_undoDelete_self (m : List (String × String)) (k : String) :
    undoGet (undoDelete m k) k = none := by
  induction m with
  | nil => simp [undoDelete, undoGet]
  | cons p rest ih =>
      by_cases h : p.1 == k
      · simp only [undoDelete] at ih ⊢
        simp [undoGet, h, ih]
      · simp only [undoDelete] at ih ⊢
        simp [undoGet, h, ih]

theorem find?_pageWriteValue (l : List PageField) (dp v : String) :
    (pageWriteValue l dp v).find? (fun f => f.domPath == dp) =
      (l.find? (fun f => f.domPath == dp)).map (fun e => { e with value := v }) := by
  induction l with
  | nil => simp [pageWriteValue]
  | cons f rest ih =>
      by_cases h : f.domPath == dp
      · simp [pageWriteValue, h]
      · simp [pageWriteValue, h, ih]

theorem pageQuery_write (pg : Page) (dp v : String) :
    pageQuery { pg with rawFields := pageWriteValue pg.rawFields dp v } dp =
      (pageQuery pg dp).map (fun e => { e with value := v }) := by
  simp [pageQuery, find?_pageWriteValue]

theorem pageValue_write_self (pg : Page) (dp v : String)
    (h : (pageQuery pg dp).isSome) :
    pageValue { pg with rawFields := pageWriteValue pg.rawFields dp v } dp = some v := by
  rcases Option.isSome_iff_exists.mp h with ⟨e, he⟩
  simp [pageValue, pageQuery_write, he]

/-! ## The claims -/

/-- C4: for every field with no UndoEntry, `revert` fails with
`NoUndoAvailable` (404, "No undo snapshot available.") and performs no
page mutation and no state change: the response leaves the server
state, the page, and the action trace exactly as they were. -/
theorem revert_without_undo_fails_noundo
    (mode : Mode) (st : ServerState) (pg : Page) (fid : String) (field : FormField)
    (hf : findField st.fields (some fid) = some field)
    (hu : undoGet st.undo field.fieldId = none) :
    handle mode (.revert (some fid)) st pg =
      ⟨⟨404, .err "No undo snapshot available."⟩, st, pg, []⟩ := by
  simp [handle, handleInner, hf, hu]

/-- Witness for C4 at a concrete input: the field is known but no
undo snapshot exists, so revert fails and changes nothing. -/
theorem revert_without_undo_fails_noundo_witness :
    findField wState.fields (some "f1") = some wField ∧
    undoGet wState.undo wField.fieldId = none ∧
    handle .managed (.revert (some "f1")) wState wPage =
      ⟨⟨404, .err "No undo snapshot available."⟩, wState, wPage, []⟩ :=
  ⟨by decide, by decide,
    revert_without_undo_fails_noundo .managed wState wPage "f1" wField
      (by decide) (by decide)⟩

/-- C7: every field-targeted operation (get field, highlight, read
value, set value, type keystrokes, revert) invoked with a `fieldId`
absent from the current descriptor set responds 404 with a
human-readable reason and performs no page mutation and no state
change — in particular no UndoEntry is written. -/
theorem unknown_fieldId_not_found_no_mutation
    (mode : Mode) (st : ServerState) (pg : Page) (fid : String)
    (h : ∀ f ∈ st.fields, f.fieldId ≠ fid) :
    handle mode (.fieldById fid) st pg =
      ⟨⟨404, .err "Field not found. Run scan first."⟩, st, pg, []⟩ ∧
    handle mode (.highlightReq (some fid)) st pg =
      ⟨⟨404, .err "Field not found."⟩, st, pg, []⟩ ∧
    handle mode (.readValue (some fid)) st pg =
      ⟨⟨404, .err "Field not found."⟩, st, pg, []⟩ ∧
    (∀ txt, handle mode (.setValue (some fid) txt) st pg =
      ⟨⟨404, .err "Field not found."⟩, st, pg, []⟩) ∧
    (∀ txt, handle mode (.typeInto (some fid) txt) st pg =
      ⟨⟨404, .err "Field not found."⟩, st, pg, []⟩) ∧
    handle mode (.revert (some fid)) st pg =
      ⟨⟨404, .err "Field not found."⟩, st, pg, []⟩ := by
  have hn : findField st.fields (some fid) = none := by
    simp only [findField, List.find?_eq_none]
    intro f hfmem
    simpa using h f hfmem
  refine ⟨?_, ?_, ?_, fun txt => ?_, fun txt => ?_, ?_⟩ <;>
    simp [handle, handleInner, hn]

/-- Witness for C7 at a concrete input: `"nope"` names no field of
the current descriptor set, so a set-value request is rejected with
404 and the state is untouched. -/
theorem unknown_fieldId_not_found_no_mutation_witness :
    (∀ f ∈ wState.fields, f.fieldId ≠ "nope") ∧
    handle .managed (.setValue (some "nope") (some "x")) wState wPage =
      ⟨⟨404, .err "Field not found."⟩, wState, wPage, []⟩ :=
  ⟨by decide,
    (unknown_fieldId_not_found_no_mutation .managed wState wPage "nope"
      (by decide)).2.2.2.1 (some "x")⟩

/-- C6: `setValue` on a known `fieldId` first re-validates that an
element still exists at the recorded `domPath`: if absent it fails 410
`Gone` with no mutation and no UndoEntry written; on the success path
it captures the element's current value into the UndoEntry strictly
before writing the new value (the trace places `undoCapture` before
`pageWrite`), and the write dispatches both an `input` and a `change`
event. -/
theorem set_revalidates_then_captures_before_write
    (mode : Mode) (st : ServerState) (pg : Page) (fid txt : String) (field : FormField)
    (hf : findField st.fields (some fid) = some field) :
    (ensureFieldExists pg field.domPath = false →
      handle mode (.setValue (some fid) (some txt)) st pg =
        ⟨⟨410, .err "Field no longer exists on page."⟩, st, pg, []⟩) ∧
    (∀ v, pageValue pg field.domPath = some v →
      handle mode (.setValue (some fid) (some txt)) st pg =
        ⟨⟨200, .okEmpty⟩,
         ⟨st.fields, undoSet st.undo field.fieldId v⟩,
         { pg with rawFields := pageWriteValue pg.rawFields field.domPath txt },
         [.undoCapture field.fieldId v, .pageWrite field.domPath txt,
          .dispatchEvent "input", .dispatchEvent "change"]⟩) := by
  constructor
  · intro hgone
    simp [handle, handleInner, hf, hgone]
  · intro v hv
    rcases hq : pageQuery pg field.domPath with _ | e
    · simp [pageValue, hq] at hv
    · have hval : e.value = v := by simpa [pageValue, hq] using hv
      simp [handle, handleInner, hf, ensureFieldExists, hq, readFieldValue,
        setFieldValue, hval]

/-- Witness for C6 at concrete inputs: the Gone branch on an empty
page, and the success branch capturing `"old"` before writing
`"new"`. -/
theorem set_revalidates_then_captures_before_write_witness :
    (ensureFieldExists ⟨"http://u", "t", []⟩ wField.domPath = false ∧
      handle .managed (.setValue (some "f1") (some "new")) wState ⟨"http://u", "t", []⟩ =
        ⟨⟨410, .err "Field no longer exists on page."⟩, wState, ⟨"http://u", "t", []⟩, []⟩) ∧
    (pageValue wPage wField.domPath = some "old" ∧
      handle .managed (.setValue (some "f1") (some "new")) wState wPage =
        ⟨⟨200, .okEmpty⟩,
         ⟨wState.fields, undoSet wState.undo wField.fieldId "old"⟩,
         { wPage with rawFields := pageWriteValue wPage.rawFields wField.domPath "new" },
         [.undoCapture wField.fieldId "old", .pageWrite wField.domPath "new",
          .dispatchEvent "input", .dispatchEvent "change"]⟩) :=
  ⟨⟨by decide,
    (set_revalidates_then_captures_before_write .managed wState ⟨"http://u", "t", []⟩
      "f1" "new" wField (by decide)).1 (by decide)⟩,
   ⟨by decide,
    (set_revalidates_then_captures_before_write .managed wState wPage
      "f1" "new" wField (by decide)).2 "old" (by decide)⟩⟩

/-- C10 (implicit): a set-value or type-keystrokes request whose body
omits the `text` parameter behaves exactly as if the empty string were
supplied (`body.text ?? ""`), and on a known, live field it succeeds:
the undo snapshot is captured and the field becomes empty. -/
theorem omitted_text_defaults_to_empty
    (mode : Mode) (st : ServerState) (pg : Page) (fidq : Option String) :
    handle mode (.setValue fidq none) st pg =
      handle mode (.setValue fidq (some "")) st pg ∧
    handle mode (.typeInto fidq none) st pg =
      handle mode (.typeInto fidq (some "")) st pg ∧
    (∀ field v, findField st.fields fidq = some field →
      pageValue pg field.domPath = some v →
      ((handle mode (.setValue fidq none) st pg).resp = ⟨200, .okEmpty⟩ ∧
       pageValue (handle mode (.setValue fidq none) st pg).page field.domPath = some "" ∧
       undoGet (handle mode (.setValue fidq none) st pg).state.undo field.fieldId = some v) ∧
      ((handle mode (.typeInto fidq none) st pg).resp = ⟨200, .okEmpty⟩ ∧
       pageValue (handle mode (.typeInto fidq none) st pg).page field.domPath = some "" ∧
       undoGet (handle mode (.typeInto fidq none) st pg).state.undo field.fieldId = some v)) := by
  refine ⟨rfl, rfl, ?_⟩
  intro field v hf hv
  rcases hq : pageQuery pg field.domPath with _ | e
  · simp [pageValue, hq] at hv
  · have hval : e.value = v := by simpa [pageValue, hq] using hv
    have hsome : (pageQuery pg field.domPath).isSome := by simp [hq]
    constructor
    · have h1 : handle mode (.setValue fidq none) st pg =
          ⟨⟨200, .okEmpty⟩, ⟨st.fields, undoSet st.undo field.fieldId v⟩,
           { pg with rawFields := pageWriteValue pg.rawFields field.domPath "" },
           [.undoCapture field.fieldId v, .pageWrite field.domPath "",
            .dispatchEvent "input", .dispatchEvent "change"]⟩ := by
        simp [handle, handleInner, hf, ensureFieldExists, hq, readFieldValue,
          setFieldValue, hval]
      rw [h1]
      exact ⟨rfl, pageValue_write_self pg field.domPath "" hsome,
        undoGet_undoSet_self st.undo field.fieldId v⟩
    · have h2 : handle mode (.typeInto fidq none) st pg =
          ⟨⟨200, .okEmpty⟩, ⟨st.fields, undoSet st.undo field.fieldId v⟩,
           { pg with rawFields := pageWriteValue pg.rawFields field.domPath "" },
           [.undoCapture field.fieldId v, .click field.domPath,
            .fill field.domPath "", .typeKeys field.domPath ""]⟩ := by
        simp [handle, handleInner, hf, hq, readFieldValue, typeIntoField, hval]
      rw [h2]
      exact ⟨rfl, pageValue_write_self pg field.domPath "" hsome,
        undoGet_undoSet_self st.undo field.fieldId v⟩

/-- Witness for C10 at a concrete input: on the known live field, a
set-value request with no text succeeds, empties the field, and
records the prior value `"old"` in the undo map. -/
theorem omitted_text_defaults_to_empty_witness :
    findField wState.fields (some "f1") = some wField ∧
    pageValue wPage wField.domPath = some "old" ∧
    ((handle .managed (.setValue (some "f1") none) wState wPage).resp = ⟨200, .okEmpty⟩ ∧
     pageValue (handle .managed (.setValue (some "f1") none) wState wPage).page
       wField.domPath = some "" ∧
     undoGet (handle .managed (.setValue (some "f1") none) wState wPage).state.undo
       wField.fieldId = some "old") :=
  ⟨by decide, by decide,
    ((omitted_text_defaults_to_empty .managed wState wPage (some "f1")).2.2
      wField "old" (by decide) (by decide)).1⟩

/-- C1 (amended): `scan` replaces the descriptor set and re-persists
it, but it does **not** clear the UndoEntries: the undo map after a
scan is exactly the undo map before it, so a revert after a scan still
succeeds whenever an UndoEntry exists for the field's current
`fieldId`. -/
theorem scan_preserves_undo_entries
    (mode : Mode) (st : ServerState) (pg : Page) :
    (handle mode .scanFields st pg).state.undo = st.undo ∧
    (handle mode .scanFields st pg).state.fields = scanFieldsOnPage pg ∧
    (handle mode .scanFields st pg).page = pg := by
  simp [handle, handleInner]

/-- C9: the stop sequence (explicit stop or process signal, after the
idempotence guard, with the connection descriptor present) first
completes the listener close, then attempts context/browser teardown,
and removes the connection descriptor strictly last — also when the
context or browser teardown rejects. -/
theorem stop_sequence_descriptor_removed_last
    (mode : Mode) (browserPresent contextCloseFails browserCloseFails : Bool) :
    (stopSeq false mode browserPresent contextCloseFails browserCloseFails true).1.head? =
      some .listenerClosed ∧
    (stopSeq false mode browserPresent contextCloseFails browserCloseFails true).1.getLast? =
      some .descriptorRemoved ∧
    StopEvent.descriptorRemoved ∉
      (stopSeq false mode browserPresent contextCloseFails browserCloseFails true).1.dropLast ∧
    (mode = .managed → contextCloseFails = false →
      (stopSeq false mode browserPresent contextCloseFails browserCloseFails true).1 =
        [.listenerClosed, .contextClosed, .descriptorRemoved]) ∧
    (∀ e, (stopSeq false mode browserPresent contextCloseFails browserCloseFails true).2 =
        .error e →
      (stopSeq false mode browserPresent contextCloseFails browserCloseFails true).1.getLast? =
        some .descriptorRemoved) := by
  cases mode <;> cases browserPresent <;> cases contextCloseFails <;>
    cases browserCloseFails <;> simp [stopSeq, closeSeq]

/-- Witness for C9 at concrete flags: managed mode with failing
context teardown still removes the descriptor last, and the clean
managed shutdown produces the full ordered event list. -/
theorem stop_sequence_descriptor_removed_last_witness :
    ((stopSeq false .managed false true false true).1.getLast? = some .descriptorRemoved) ∧
    (stopSeq false .managed false false false true).1 =
      [.listenerClosed, .contextClosed, .descriptorRemoved] :=
  ⟨(stop_sequence_descriptor_removed_last .managed false true false).2.1,
   (stop_sequence_descriptor_removed_last .managed false false false).2.2.2.1 rfl rfl⟩

/-- C2: a successful `setValue` immediately followed by `revert` on
the same field restores the field's exact prior value (byte-for-byte,
the empty string included), the restore goes through the
programmatic-set path (a `pageWrite` plus `input`/`change` dispatches,
no simulated keystrokes), and the UndoEntry is removed, so a second
revert fails with `NoUndoAvailable`. -/
theorem set_then_revert_restores_exact_value
    (mode : Mode) (st : ServerState) (pg : Page) (fid txt : String)
    (field : FormField) (v : String) (o1 o2 : HandlerOut)
    (hf : findField st.fields (some fid) = some field)
    (hv : pageValue pg field.domPath = some v)
    (ho1 : o1 = handle mode (.setValue (some fid) (some txt)) st pg)
    (ho2 : o2 = handle mode (.revert (some fid)) o1.state o1.page) :
    o1.resp = ⟨200, .okEmpty⟩ ∧
    o2.resp = ⟨200, .okEmpty⟩ ∧
    pageValue o2.page field.domPath = some v ∧
    o2.trace = [.pageWrite field.domPath v, .dispatchEvent "input",
      .dispatchEvent "change"] ∧
    undoGet o2.state.undo field.fieldId = none ∧
    (handle mode (.revert (some fid)) o2.state o2.page).resp =
      ⟨404, .err "No undo snapshot available."⟩ := by
  subst ho1 ho2
  rcases hq : pageQuery pg field.domPath with _ | e
  · simp [pageValue, hq] at hv
  · have hval : e.value = v := by simpa [pageValue, hq] using hv
    have h1 : handle mode (.setValue (some fid) (some txt)) st pg =
        ⟨⟨200, .okEmpty⟩, ⟨st.fields, undoSet st.undo field.fieldId v⟩,
         { pg with rawFields := pageWriteValue pg.rawFields field.domPath txt },
         [.undoCapture field.fieldId v, .pageWrite field.domPath txt,
          .dispatchEvent "input", .dispatchEvent "change"]⟩ := by
      simp [handle, handleInner, hf, ensureFieldExists, hq, readFieldValue,
        setFieldValue, hval]
    rw [h1]
    have hq1 : pageQuery { pg with rawFields := pageWriteValue pg.rawFields field.domPath txt }
        field.domPath = some { e with value := txt } := by
      simp [pageQuery_write, hq]
    have hu1 : undoGet (undoSet st.undo field.fieldId v) field.fieldId = some v :=
      undoGet_undoSet_self st.undo field.fieldId v
    have h2 : handle mode (.revert (some fid))
        (⟨st.fields, undoSet st.undo field.fieldId v⟩ : ServerState)
        { pg with rawFields := pageWriteValue pg.rawFields field.domPath txt } =
        ⟨⟨200, .okEmpty⟩,
         ⟨st.fields, undoDelete (undoSet st.undo field.fieldId v) field.fieldId⟩,
         { pg with rawFields := (pageWriteValue
            (pageWriteValue pg.rawFields field.domPath txt) field.domPath v) },
         [.pageWrite field.domPath v, .dispatchEvent "input", .dispatchEvent "change"]⟩ := by
      simp [handle, handleInner, hf, hu1, setFieldValue, hq1]
    rw [h2]
    have hq2 : pageQuery { pg with rawFields := (pageWriteValue
        (pageWriteValue pg.rawFields field.domPath txt) field.domPath v) }
        field.domPath = some { e with value := v } := by
      have := pageQuery_write
        ({ pg with rawFields := pageWriteValue pg.rawFields field.domPath txt })
        field.domPath v
      simp only [hq1, Option.map_some] at this
      simpa using this
    refine ⟨rfl, rfl, ?_, rfl, ?_, ?_⟩
    · simp [pageValue, hq2]
    · exact undoGet_undoDelete_self (undoSet st.undo field.fieldId v) field.fieldId
    · simp [handle, handleInner, hf,
        undoGet_undoDelete_self (undoSet st.undo field.fieldId v) field.fieldId]

/-- Witness for C2 at a concrete input: setting `"x"` over the prior
value `"old"` and reverting restores `"old"` through the programmatic
path, and a second revert fails. -/
theorem set_then_revert_restores_exact_value_witness :
    findField wState.fields (some "f1") = some wField ∧
    pageValue wPage wField.domPath = some "old" ∧
    (pageValue (handle .managed (.revert (some "f1"))
        (handle .managed (.setValue (some "f1") (some "x")) wState wPage).state
        (handle .managed (.setValue (some "f1") (some "x")) wState wPage).page).page
      wField.domPath = some "old" ∧
     (handle .managed (.revert (some "f1"))
        (handle .managed (.setValue (some "f1") (some "x")) wState wPage).state
        (handle .managed (.setValue (some "f1") (some "x")) wState wPage).page).trace =
       [.pageWrite wField.domPath "old", .dispatchEvent "input", .dispatchEvent "change"]) :=
  ⟨by decide, by decide,
    ⟨(set_then_revert_restores_exact_value .managed wState wPage "f1" "x" wField "old"
        _ _ (by decide) (by decide) rfl rfl).2.2.1,
     (set_then_revert_restores_exact_value .managed wState wPage "f1" "x" wField "old"
        _ _ (by decide) (by decide) rfl rfl).2.2.2.1⟩⟩

/-- C5: a second successful `setValue` on the same field before any
revert overwrites the single UndoEntry with the value observed just
before the second call (the value the first set wrote), so reverting
after two consecutive sets restores the value before the second set,
never the value before the first. -/
theorem second_set_overwrites_undo
    (mode : Mode) (st : ServerState) (pg : Page) (fid t1 t2 : String)
    (field : FormField) (v : String) (o1 o2 : HandlerOut)
    (hf : findField st.fields (some fid) = some field)
    (hv : pageValue pg field.domPath = some v)
    (ho1 : o1 = handle mode (.setValue (some fid) (some t1)) st pg)
    (ho2 : o2 = handle mode (.setValue (some fid) (some t2)) o1.state o1.page) :
    pageValue o1.page field.domPath = some t1 ∧
    undoGet o2.state.undo field.fieldId = some t1 ∧
    (t1 ≠ v → undoGet o2.state.undo field.fieldId ≠ some v) ∧
    pageValue (handle mode (.revert (some fid)) o2.state o2.page).page
      field.domPath = some t1 := by
  subst ho1 ho2
  rcases hq : pageQuery pg field.domPath with _ | e
  · simp [pageValue, hq] at hv
  · have hval : e.value = v := by simpa [pageValue, hq] using hv
    have h1 : handle mode (.setValue (some fid) (some t1)) st pg =
        ⟨⟨200, .okEmpty⟩, ⟨st.fields, undoSet st.undo field.fieldId v⟩,
         { pg with rawFields := pageWriteValue pg.rawFields field.domPath t1 },
         [.undoCapture field.fieldId v, .pageWrite field.domPath t1,
          .dispatchEvent "input", .dispatchEvent "change"]⟩ := by
      simp [handle, handleInner, hf, ensureFieldExists, hq, readFieldValue,
        setFieldValue, hval]
    rw [h1]
    have hq1 : pageQuery { pg with rawFields := pageWriteValue pg.rawFields field.domPath t1 }
        field.domPath = some { e with value := t1 } := by
      simp [pageQuery_write, hq]
    have h2 : handle mode (.setValue (some fid) (some t2))
        (⟨st.fields, undoSet st.undo field.fieldId v⟩ : ServerState)
        { pg with rawFields := pageWriteValue pg.rawFields field.domPath t1 } =
        ⟨⟨200, .okEmpty⟩,
         ⟨st.fields, undoSet (undoSet st.undo field.fieldId v) field.fieldId t1⟩,
         { pg with rawFields := (pageWriteValue
            (pageWriteValue pg.rawFields field.domPath t1) field.domPath t2) },
         [.undoCapture field.fieldId t1, .pageWrite field.domPath t2,
          .dispatchEvent "input", .dispatchEvent "change"]⟩ := by
      simp [handle, handleInner, hf, ensureFieldExists, hq1, readFieldValue,
        setFieldValue]
    rw [h2]
    have hu2 : undoGet (undoSet (undoSet st.undo field.fieldId v) field.fieldId t1)
        field.fieldId = some t1 :=
      undoGet_undoSet_self _ field.fieldId t1
    have hq2 : pageQuery { pg with rawFields := (pageWriteValue
        (pageWriteValue pg.rawFields field.domPath t1) field.domPath t2) }
        field.domPath = some { e with value := t2 } := by
      have := pageQuery_write
        ({ pg with rawFields := pageWriteValue pg.rawFields field.domPath t1 })
        field.domPath t2
      simp only [hq1, Option.map_some] at this
      simpa using this
    have h3 : handle mode (.revert (some fid))
        (⟨st.fields, undoSet (undoSet st.undo field.fieldId v) field.fieldId t1⟩ : ServerState)
        { pg with rawFields := (pageWriteValue
           (pageWriteValue pg.rawFields field.domPath t1) field.domPath t2) } =
        ⟨⟨200, .okEmpty⟩,
         ⟨st.fields, undoDelete (undoSet (undoSet st.undo field.fieldId v) field.fieldId t1)
            field.fieldId⟩,
         { pg with rawFields := (pageWriteValue (pageWriteValue
            (pageWriteValue pg.rawFields field.domPath t1) field.domPath t2)
            field.domPath t1) },
         [.pageWrite field.domPath t1, .dispatchEvent "input", .dispatchEvent "change"]⟩ := by
      simp [handle, handleInner, hf, hu2, setFieldValue, hq2]
    have hq3 : pageQuery { pg with rawFields := (pageWriteValue (pageWriteValue
        (pageWriteValue pg.rawFields field.domPath t1) field.domPath t2)
        field.domPath t1) } field.domPath = some { e with value := t1 } := by
      have := pageQuery_write
        ({ pg with rawFields := (pageWriteValue
           (pageWriteValue pg.rawFields field.domPath t1) field.domPath t2) })
        field.domPath t1
      simp only [hq2, Option.map_some] at this
      simpa using this
    refine ⟨?_, hu2, ?_, ?_⟩
    · simp [pageValue, hq1]
    · intro hne habs
      rw [hu2] at habs
      exact hne (by simpa using habs)
    · rw [h3]
      simp [pageValue, hq3]

/-- Witness for C5 at a concrete input: after setting `"x"` then
`"y"` over the prior value `"old"`, the undo entry holds `"x"` (not
`"old"`) and reverting restores `"x"`. -/
theorem second_set_overwrites_undo_witness :
    findField wState.fields (some "f1") = some wField ∧
    pageValue wPage wField.domPath = some "old" ∧
    (undoGet (handle .managed (.setValue (some "f1") (some "y"))
        (handle .managed (.setValue (some "f1") (some "x")) wState wPage).state
        (handle .managed (.setValue (some "f1") (some "x")) wState wPage).page).state.undo
       wField.fieldId = some "x" ∧
     undoGet (handle .managed (.setValue (some "f1") (some "y"))
        (handle .managed (.setValue (some "f1") (some "x")) wState wPage).state
        (handle .managed (.setValue (some "f1") (some "x")) wState wPage).page).state.undo
       wField.fieldId ≠ some "old") :=
  ⟨by decide, by decide,
    ⟨(second_set_overwrites_undo .managed wState wPage "f1" "x" "y" wField "old"
        _ _ (by decide) (by decide) rfl rfl).2.1,
     (second_set_overwrites_undo .managed wState wPage "f1" "x" "y" wField "old"
        _ _ (by decide) (by decide) rfl rfl).2.2.1 (by decide)⟩⟩

/-- Every `.ok` outcome of the handler body is a well-formed
envelope: 200 with a truthy payload, or a non-200 with an `err`
payload. -/
theorem handleInner_envelope (mode : Mode) (req : Request) (st : ServerState)
    (pg : Page) (out : HandlerOut) (h : handleInner mode req st pg = .ok out) :
    (out.resp.status = 200 ∧ out.resp.payload.ok = true ∧
      out.resp.payload.error = none) ∨
    (out.resp.status ≠ 200 ∧ out.resp.payload.ok = false ∧
      ∃ e, out.resp.payload = .err e) := by
  cases req <;> simp only [handleInner] at h <;>
    (repeat' split at h) <;> cases h <;> simp [Payload.ok, Payload.error]

/-- C8: every response of the Control Protocol server carries an
explicit ok flag — a success response is a 200 whose payload has
`ok: true` and no `error` field, every non-success response is a
non-200 whose payload is `{ok: false, error: <string>}` — and a fault
thrown inside a request handler is converted by the catch into a 500
error envelope instead of crashing the process. -/
theorem response_envelope_ok_flag (mode : Mode) (req : Request)
    (st : ServerState) (pg : Page) :
    (((handle mode req st pg).resp.status = 200 ∧
      (handle mode req st pg).resp.payload.ok = true ∧
      (handle mode req st pg).resp.payload.error = none) ∨
     ((handle mode req st pg).resp.status ≠ 200 ∧
      (handle mode req st pg).resp.payload.ok = false ∧
      ∃ e, (handle mode req st pg).resp.payload = .err e)) ∧
    (∀ e, handleInner mode req st pg = .error e →
      handle mode req st pg = ⟨⟨500, .err e⟩, st, pg, []⟩) := by
  constructor
  · cases hi : handleInner mode req st pg with
    | ok out =>
        have hw := handleInner_envelope mode req st pg out hi
        simpa [handle, hi] using hw
    | error e =>
        simp [handle, hi, Payload.ok, Payload.error]
  · intro e he
    simp [handle, he]

/-- Witness for C8 at concrete inputs: a fault thrown by reading a
field that is registered but no longer on the page is converted into
the 500 error envelope. -/
theorem response_envelope_ok_flag_witness :
    handleInner .managed (.readValue (some "f1")) wState ⟨"http://u", "t", []⟩ =
      .error "Field not found" ∧
    handle .managed (.readValue (some "f1")) wState ⟨"http://u", "t", []⟩ =
      ⟨⟨500, .err "Field not found"⟩, wState, ⟨"http://u", "t", []⟩, []⟩ :=
  ⟨rfl,
    (response_envelope_ok_flag .managed (.readValue (some "f1")) wState
      ⟨"http://u", "t", []⟩).2 "Field not found" rfl⟩

set_option maxRecDepth 40000 in
/-- C3: the derived field identifier is `"fld_"` followed by the
first 12 hex characters of `sha1(domPath + "::" + label + "::" +
kind)`; it is a pure function of those three inputs, so scans with
identical `(domPath, label, kind)` data reproduce identical ids, and
changing the label or the domPath changes the id (shown at concrete
inputs). -/
theorem fieldId_derivation :
    (∀ domPath label kind, makeFieldId domPath label kind =
      "fld_" ++ (sha1Hex (strBytes (domPath ++ "::" ++ label ++ "::" ++ kind))).take 12) ∧
    (∀ pg₁ pg₂ : Page,
      pg₁.rawFields.map (fun f => (f.domPath, f.label, f.type)) =
        pg₂.rawFields.map (fun f => (f.domPath, f.label, f.type)) →
      (scanFieldsOnPage pg₁).map (fun f => f.fieldId) =
        (scanFieldsOnPage pg₂).map (fun f => f.fieldId)) ∧
    makeFieldId "div > input" "name" "input:text" ≠
      makeFieldId "div > input" "email" "input:text" ∧
    makeFieldId "div > input" "name" "input:text" ≠
      makeFieldId "form > input" "name" "input:text" := by
  refine ⟨?_, ?_, ?_, ?_⟩
  · intro domPath label kind
    rw [String.take_eq]
    rfl
  · intro pg₁ pg₂ h
    have key : ∀ pg : Page, (scanFieldsOnPage pg).map (fun f => f.fieldId) =
        (pg.rawFields.map (fun f => (f.domPath, f.label, f.type))).map
          (fun t => makeFieldId t.1 t.2.1 t.2.2) := by
      intro pg
      simp only [scanFieldsOnPage, List.map_map]
      rfl
    rw [key, key, h]
  · decide
  · decide

/-- Witness for C3 at a concrete input: two scans over the same raw
element data produce the same ids. -/
theorem fieldId_derivation_witness :
    wPage.rawFields.map (fun f => (f.domPath, f.label, f.type)) =
      wPage.rawFields.map (fun f => (f.domPath, f.label, f.type)) ∧
    (scanFieldsOnPage wPage).map (fun f => f.fieldId) =
      (scanFieldsOnPage wPage).map (fun f => f.fieldId) :=
  ⟨rfl, fieldId_derivation.2.1 wPage wPage rfl⟩

set_option maxRecDepth 400000 in
/-- C1 counterexample: `setValue(f, "x")` then `scan()` then
`revert(f)` does **not** fail with `NoUndoAvailable` — the scan leaves
the UndoEntry in place, the new scan reproduces the same `fieldId` for
the unchanged element, and the revert succeeds with 200, restoring the
pre-set value `"old"`. -/
theorem revert_succeeds_after_scan :
    afterSet.resp = ⟨200, .okEmpty⟩ ∧
    afterRescan.state.undo = [(wRawId, "old")] ∧
    afterRevert.resp = ⟨200, .okEmpty⟩ ∧
    afterRevert.resp ≠ ⟨404, .err "No undo snapshot available."⟩ ∧
    pageValue afterRevert.page "p" = some "old" := by
  have h3 : afterRevert.resp = ⟨200, .okEmpty⟩ := by decide
  refine ⟨by decide, by decide, h3, ?_, by decide⟩
  rw [h3]
  simp

end Dalil
